import Mathlib

/-!
Shallow embedding of the blob-storage aggregation layer
(`FallbackStorageAdapter` and `buildStorage`).

The aggregator keeps an ordered registry of named storage providers
(index 0 is the primary/target, later entries are fallbacks).  Provider
behaviour is modelled as pure response functions; each provider call a
method performs is recorded in an explicit trace (`Call` events), so the
theorems can speak about which providers were touched and in which
order.  Fallible provider operations return `Except String`; errors the
aggregator raises itself are `StorageError` values (`noSuchKeyError`
models the source's `NoSuchKeyError`, whose `code` field is
`"NoSuchKey"`; `backendError` is a propagated provider error).
-/

deriving instance DecidableEq for Except

/-- Tenant/workspace identifier (source `WorkspaceId`); only its `name`
is used by the aggregator. -/
structure WorkspaceId where
  name : String
deriving DecidableEq

/-- Blob stat record (source `Blob`): the provider's own object id
`_id`, the provider stamp the aggregator writes, content hash and
size. -/
structure Blob where
  _id : String
  provider : String
  etag : String
  size : Nat
deriving DecidableEq

/-- One entry of a provider's listing stream (source `ListBlobResult`);
`provider` is assigned by the merged iterator, not by the source
provider. -/
structure ListBlobResult where
  _id : String
  provider : String
  etag : String
  size : Nat
deriving DecidableEq

/-- Result of a provider `put` (source `UploadedObjectInfo`). -/
structure UploadedObjectInfo where
  etag : String
  versionId : Option String
deriving DecidableEq

/-- A provider call issued by the aggregator, recorded in traces.  The
first `String` is always the registry name of the provider that was
called. -/
inductive Call where
  | statC (p ws n : String)
  | getC (p ws oid : String)
  | partC (p ws oid : String) (offset : Nat) (length : Option Nat)
  | readC (p ws oid : String)
  | putC (p ws n stream contentType : String) (size : Option Nat)
  | removeC (p ws : String) (objectNames : List String)
  | existsC (p ws : String)
  | makeC (p ws : String)
  | deleteC (p ws : String)
  | closeC (p : String)
deriving DecidableEq

/-- Error surfaced by an aggregator operation: either the aggregator's
own `NoSuchKeyError` (code `"NoSuchKey"`) or a provider error
propagated verbatim. -/
inductive StorageError where
  | noSuchKeyError (msg : String)
  | backendError (err : String)
deriving DecidableEq

/-- The `code` field of the error, `some "NoSuchKey"` exactly for the
aggregator's not-found error (mirrors `NoSuchKeyError.code`). -/
def StorageError.code : StorageError → Option String
  | StorageError.noSuchKeyError _ => some "NoSuchKey"
  | StorageError.backendError _ => none

/-- The message carried by the error. -/
def StorageError.message : StorageError → String
  | StorageError.noSuchKeyError m => m
  | StorageError.backendError m => m

/-- A storage provider (source `StorageAdapter` interface), modelled as
pure response functions.  `listStream` is the provider's listing cursor
given as the sequence of batches its `next` will yield before it is
exhausted; `partRead` models the source's range-read method (named
after the offset/length read, since its source name is a Lean
keyword). -/
structure StorageAdapter where
  stat : WorkspaceId → String → Except String (Option Blob)
  get : WorkspaceId → String → Except String String
  partRead : WorkspaceId → String → Nat → Option Nat → Except String String
  read : WorkspaceId → String → Except String (List String)
  put : WorkspaceId → String → String → String → Option Nat → Except String UploadedObjectInfo
  remove : WorkspaceId → List String → Except String Unit
  existsFn : WorkspaceId → Except String Bool
  make : WorkspaceId → Except String Unit
  delete : WorkspaceId → Except String Unit
  listStream : WorkspaceId → List (List ListBlobResult)
  close : Except String Unit

/-- The aggregator: an ordered registry of named providers; index 0 is
the primary/target, the rest are fallbacks (source
`FallbackStorageAdapter`, field `adapters`). -/
structure FallbackStorageAdapter where
  adapters : List (String × StorageAdapter)

/-- Lift a provider error into the aggregator's error type (providers'
errors are propagated verbatim, not wrapped). -/
def liftBackend {α : Type} : Except String α → Except StorageError α
  | Except.ok a => Except.ok a
  | Except.error e => Except.error (StorageError.backendError e)

/-- Result of the locator (source `findProvider`): the provider's
registry name, the provider, and the stat it reported. -/
structure FindResult where
  id : String
  provider : StorageAdapter
  stat : Blob

/-- Loop body of `findProvider`: walk the registry in order, call
`stat` on each provider, stop at the first non-empty stat (or first
error). -/
def findProviderGo (ws : WorkspaceId) (objectName : String) :
    List (String × StorageAdapter) → List Call × Except String (Option FindResult)
  | [] => ([], Except.ok none)
  | (id, provider) :: rest =>
    match provider.stat ws objectName with
    | Except.error e => ([Call.statC id ws.name objectName], Except.error e)
    | Except.ok (some st) => ([Call.statC id ws.name objectName], Except.ok (some ⟨id, provider, st⟩))
    | Except.ok none =>
      let r := findProviderGo ws objectName rest
      (Call.statC id ws.name objectName :: r.1, r.2)

/-- Source `FallbackStorageAdapter.findProvider`. -/
def FallbackStorageAdapter.findProvider (x : FallbackStorageAdapter) (ws : WorkspaceId)
    (objectName : String) : List Call × Except String (Option FindResult) :=
  findProviderGo ws objectName x.adapters

/-- Source `FallbackStorageAdapter.stat`: locate the object and stamp
the returned stat with the providing adapter's registry name; a missing
object yields `none` (no error). -/
def FallbackStorageAdapter.stat (x : FallbackStorageAdapter) (ws : WorkspaceId)
    (name : String) : List Call × Except StorageError (Option Blob) :=
  match x.findProvider ws name with
  | (t, Except.error e) => (t, Except.error (StorageError.backendError e))
  | (t, Except.ok none) => (t, Except.ok none)
  | (t, Except.ok (some r)) => (t, Except.ok (some { r.stat with provider := r.id }))

/-- Source `FallbackStorageAdapter.get`: locate the object, raise
`NoSuchKeyError` when absent everywhere, else delegate to the located
provider under the stat's own `_id`. -/
def FallbackStorageAdapter.get (x : FallbackStorageAdapter) (ws : WorkspaceId)
    (name : String) : List Call × Except StorageError String :=
  match x.findProvider ws name with
  | (t, Except.error e) => (t, Except.error (StorageError.backendError e))
  | (t, Except.ok none) => (t, Except.error (StorageError.noSuchKeyError (ws.name ++ " missing " ++ name)))
  | (t, Except.ok (some r)) =>
    (t ++ [Call.getC r.id ws.name r.stat._id], liftBackend (r.provider.get ws r.stat._id))

/-- Source `FallbackStorageAdapter.partial` (range read). -/
def FallbackStorageAdapter.partRead (x : FallbackStorageAdapter) (ws : WorkspaceId)
    (objectName : String) (offset : Nat) (length : Option Nat) :
    List Call × Except StorageError String :=
  match x.findProvider ws objectName with
  | (t, Except.error e) => (t, Except.error (StorageError.backendError e))
  | (t, Except.ok none) => (t, Except.error (StorageError.noSuchKeyError (ws.name ++ " missing " ++ objectName)))
  | (t, Except.ok (some r)) =>
    (t ++ [Call.partC r.id ws.name r.stat._id offset length],
      liftBackend (r.provider.partRead ws r.stat._id offset length))

/-- Source `FallbackStorageAdapter.read` (full read into buffers). -/
def FallbackStorageAdapter.read (x : FallbackStorageAdapter) (ws : WorkspaceId)
    (objectName : String) : List Call × Except StorageError (List String) :=
  match x.findProvider ws objectName with
  | (t, Except.error e) => (t, Except.error (StorageError.backendError e))
  | (t, Except.ok none) => (t, Except.error (StorageError.noSuchKeyError (ws.name ++ " missing " ++ objectName)))
  | (t, Except.ok (some r)) =>
    (t ++ [Call.readC r.id ws.name r.stat._id], liftBackend (r.provider.read ws r.stat._id))

/-- Source `FallbackStorageAdapter.put`: write through the provider at
registry index 0 only (the registry is non-empty by construction; the
empty case models the runtime fault of indexing an empty list). -/
def FallbackStorageAdapter.put (x : FallbackStorageAdapter) (ws : WorkspaceId)
    (objectName stream contentType : String) (size : Option Nat) :
    List Call × Except StorageError UploadedObjectInfo :=
  match x.adapters with
  | [] => ([], Except.error (StorageError.backendError "no adapters"))
  | (id, adapter) :: _ =>
    ([Call.putC id ws.name objectName stream contentType size],
      liftBackend (adapter.put ws objectName stream contentType size))

/-- Loop body of the aggregator's `remove`: call every provider's
`remove` in registry order, unconditionally; the first provider error
stops the loop and propagates. -/
def removeGo (ws : WorkspaceId) (objectNames : List String) :
    List (String × StorageAdapter) → List Call × Except StorageError Unit
  | [] => ([], Except.ok ())
  | (id, adapter) :: rest =>
    match adapter.remove ws objectNames with
    | Except.error e => ([Call.removeC id ws.name objectNames], Except.error (StorageError.backendError e))
    | Except.ok _ =>
      let r := removeGo ws objectNames rest
      (Call.removeC id ws.name objectNames :: r.1, r.2)

/-- Source `FallbackStorageAdapter.remove`. -/
def FallbackStorageAdapter.remove (x : FallbackStorageAdapter) (ws : WorkspaceId)
    (objectNames : List String) : List Call × Except StorageError Unit :=
  removeGo ws objectNames x.adapters

/-- Loop body of the aggregator's `delete`: for each provider in
registry order, check `exists` and delete only when it reports `true`;
errors from either call propagate and stop the loop. -/
def deleteGo (ws : WorkspaceId) :
    List (String × StorageAdapter) → List Call × Except StorageError Unit
  | [] => ([], Except.ok ())
  | (id, a) :: rest =>
    match a.existsFn ws with
    | Except.error e => ([Call.existsC id ws.name], Except.error (StorageError.backendError e))
    | Except.ok false =>
      let r := deleteGo ws rest
      (Call.existsC id ws.name :: r.1, r.2)
    | Except.ok true =>
      match a.delete ws with
      | Except.error e =>
        ([Call.existsC id ws.name, Call.deleteC id ws.name], Except.error (StorageError.backendError e))
      | Except.ok _ =>
        let r := deleteGo ws rest
        (Call.existsC id ws.name :: Call.deleteC id ws.name :: r.1, r.2)

/-- Source `FallbackStorageAdapter.delete`. -/
def FallbackStorageAdapter.delete (x : FallbackStorageAdapter) (ws : WorkspaceId) :
    List Call × Except StorageError Unit :=
  deleteGo ws x.adapters

/-- Loop body of the aggregator's `make` (best-effort bucket
creation): for each provider, check `exists` and call `make` when it
reports `false`; any error from `exists` or `make` is caught, recorded
as a log entry `(provider, error)` (the source logs it and reports it
to telemetry), and the loop continues — nothing propagates. -/
def makeGo (ws : WorkspaceId) :
    List (String × StorageAdapter) → List Call × List (String × String)
  | [] => ([], [])
  | (k, a) :: rest =>
    let r := makeGo ws rest
    match a.existsFn ws with
    | Except.error e => (Call.existsC k ws.name :: r.1, (k, e) :: r.2)
    | Except.ok true => (Call.existsC k ws.name :: r.1, r.2)
    | Except.ok false =>
      match a.make ws with
      | Except.error e =>
        (Call.existsC k ws.name :: Call.makeC k ws.name :: r.1, (k, e) :: r.2)
      | Except.ok _ => (Call.existsC k ws.name :: Call.makeC k ws.name :: r.1, r.2)

/-- Source `FallbackStorageAdapter.make`: never fails, returns only the
trace of provider calls and the list of swallowed (logged) errors. -/
def FallbackStorageAdapter.make (x : FallbackStorageAdapter) (ws : WorkspaceId) :
    List Call × List (String × String) :=
  makeGo ws x.adapters

/-- Loop body of the aggregator's `close`: close every provider in
registry order, awaiting each; a provider error propagates. -/
def closeGo : List (String × StorageAdapter) → List Call × Except StorageError Unit
  | [] => ([], Except.ok ())
  | (id, a) :: rest =>
    match a.close with
    | Except.error e => ([Call.closeC id], Except.error (StorageError.backendError e))
    | Except.ok _ =>
      let r := closeGo rest
      (Call.closeC id :: r.1, r.2)

/-- Source `FallbackStorageAdapter.close`. -/
def FallbackStorageAdapter.close (x : FallbackStorageAdapter) :
    List Call × Except StorageError Unit :=
  closeGo x.adapters

/-- Cursor-level events of the merged listing iterator: opening a
provider's listing stream, pulling a batch from the currently open
cursor, and closing it. -/
inductive CursorEvent where
  | openedCur (p : String)
  | pulledCur (p : String)
  | closedCur (p : String)
deriving DecidableEq

/-- Mutable state of the merged listing iterator (source
`makeStorageIterator` closure): the providers not yet visited, each
with its pending stream of batches, and the currently open cursor (a
provider name with the batches its `next` will still yield). -/
structure IterState where
  remaining : List (String × List (List ListBlobResult))
  current : Option (String × List (List ListBlobResult))
deriving DecidableEq

/-- Outcome of one `next` call on the merged iterator: the batch handed
to the consumer, the successor state, and the cursor events that
happened during the call. -/
structure StepResult where
  out : List ListBlobResult
  state : IterState
  events : List CursorEvent
deriving DecidableEq

/-- Stamp every entry of a batch with the provider name it came from
(source: `d.provider = provider[0]`). -/
def tagWith (p : String) (ds : List ListBlobResult) : List ListBlobResult :=
  ds.map (fun d => { d with provider := p })

/-- The iterator's loop once no cursor is open: pop providers in order,
open each one's stream, and pull; an empty first pull means the
provider is exhausted, so close it and continue with the next; a
non-empty batch is tagged and returned. -/
def iterNextGo : List (String × List (List ListBlobResult)) → StepResult
  | [] => ⟨[], ⟨[], none⟩, []⟩
  | (p, batches) :: rest =>
    match batches with
    | [] =>
      let r := iterNextGo rest
      ⟨r.out, r.state, CursorEvent.openedCur p :: CursorEvent.pulledCur p :: CursorEvent.closedCur p :: r.events⟩
    | b :: more =>
      if b.isEmpty then
        let r := iterNextGo rest
        ⟨r.out, r.state, CursorEvent.openedCur p :: CursorEvent.pulledCur p :: CursorEvent.closedCur p :: r.events⟩
      else
        ⟨tagWith p b, ⟨rest, some (p, more)⟩, [CursorEvent.openedCur p, CursorEvent.pulledCur p]⟩

/-- One `next` call on the merged iterator (source: the `while (true)`
loop in `makeStorageIterator`): pull from the open cursor if any,
closing it when it yields nothing and falling through to the remaining
providers. -/
def iterNext (s : IterState) : StepResult :=
  match s.current with
  | none => iterNextGo s.remaining
  | some (p, batches) =>
    match batches with
    | [] =>
      let r := iterNextGo s.remaining
      ⟨r.out, r.state, CursorEvent.pulledCur p :: CursorEvent.closedCur p :: r.events⟩
    | b :: more =>
      if b.isEmpty then
        let r := iterNextGo s.remaining
        ⟨r.out, r.state, CursorEvent.pulledCur p :: CursorEvent.closedCur p :: r.events⟩
      else
        ⟨tagWith p b, ⟨s.remaining, some (p, more)⟩, [CursorEvent.pulledCur p]⟩

/-- `close` on the merged iterator: close the currently open provider
cursor, if any; otherwise do nothing. -/
def iterClose (s : IterState) : List CursorEvent :=
  match s.current with
  | some (p, _) => [CursorEvent.closedCur p]
  | none => []

/-- Source `FallbackStorageAdapter.makeStorageIterator`: reverse the
registry (so the primary is visited last) and start with no open
cursor. -/
def FallbackStorageAdapter.makeStorageIterator (x : FallbackStorageAdapter)
    (ws : WorkspaceId) : IterState :=
  ⟨x.adapters.reverse.map (fun e => (e.1, e.2.listStream ws)), none⟩

/-- Source `FallbackStorageAdapter.listStream`: a pass-through wrapper
around `makeStorageIterator` (its `next` and `close` delegate 1:1). -/
def FallbackStorageAdapter.listStream (x : FallbackStorageAdapter)
    (ws : WorkspaceId) : IterState :=
  x.makeStorageIterator ws

/-- Termination measure helper: weight of one not-yet-visited provider
entry. -/
def provWeight (e : String × List (List ListBlobResult)) : Nat :=
  e.2.length + 1

/-- Termination measure helper: weight of a list of pending provider
entries. -/
def remWeight (rem : List (String × List (List ListBlobResult))) : Nat :=
  (rem.map provWeight).sum

/-- Termination measure for draining the merged iterator. -/
def iterWeight (s : IterState) : Nat :=
  remWeight s.remaining + (match s.current with
    | none => 0
    | some e => e.2.length + 1)

/-- Drain the merged listing iterator to the end, concatenating every
batch it hands to the consumer (the consumer stops at the first empty
`next`, exactly as `find`'s and `listStream`'s callers do). -/
def drain (s : IterState) : List ListBlobResult :=
  if h : (iterNext s).out = [] then [] else (iterNext s).out ++ drain (iterNext s).state
termination_by iterWeight s
decreasing_by
  have hwn : ∀ rem, iterWeight ⟨rem, none⟩ = remWeight rem := by
    intro rem
    simp [iterWeight]
  have hws : ∀ rem p bs, iterWeight ⟨rem, some (p, bs)⟩ = remWeight rem + bs.length + 1 := by
    intro rem p bs
    simp [iterWeight]
    omega
  have hrc : ∀ (e : String × List (List ListBlobResult)) rest,
      remWeight (e :: rest) = e.2.length + 1 + remWeight rest := by
    intro e rest
    simp [remWeight, provWeight]
  have key : ∀ rem, iterWeight (iterNextGo rem).state ≤ remWeight rem ∧
      ((iterNextGo rem).out ≠ [] → iterWeight (iterNextGo rem).state < remWeight rem) := by
    intro rem
    induction rem with
    | nil =>
      constructor
      · simp [iterNextGo, hwn, remWeight]
      · intro h0
        simp [iterNextGo] at h0
    | cons e rest ih =>
      obtain ⟨p, batches⟩ := e
      rw [hrc]
      have h1 := ih.1
      cases batches with
      | nil =>
        simp only [iterNextGo, List.length_nil]
        exact ⟨by omega, fun _ => by omega⟩
      | cons b more =>
        by_cases hb : b.isEmpty
        · simp only [iterNextGo, hb, if_true, List.length_cons]
          exact ⟨by omega, fun _ => by omega⟩
        · have hb' : b.isEmpty = false := by
            simpa using hb
          simp only [iterNextGo, hb', Bool.false_eq_true, if_false, List.length_cons, hws]
          exact ⟨by omega, fun _ => by omega⟩
  obtain ⟨rem, cur⟩ := s
  cases cur with
  | none =>
    have h2 := (key rem).2
    simp only [iterNext] at h ⊢
    rw [hwn]
    exact h2 h
  | some e =>
    obtain ⟨p, batches⟩ := e
    simp only [hws]
    cases batches with
    | nil =>
      have h1 := (key rem).1
      simp only [iterNext] at h ⊢
      omega
    | cons b more =>
      by_cases hb : b.isEmpty
      · have h1 := (key rem).1
        simp only [iterNext, hb, if_true] at h ⊢
        simp only [List.length_cons]
        omega
      · have hb' : b.isEmpty = false := by
          simpa using hb
        simp only [iterNext, hb', Bool.false_eq_true, if_false] at h ⊢
        simp only [hws]
        simp only [List.length_cons]
        omega

/-- Replay one cursor event against the name of the currently open
provider cursor (if any): fails (`none`) when a cursor is opened while
another is still open, or when a pull/close names a provider whose
cursor is not the open one. -/
def stepCursor : Option String → CursorEvent → Option (Option String)
  | none, CursorEvent.openedCur p => some (some p)
  | some q, CursorEvent.pulledCur p => if q = p then some (some q) else none
  | some q, CursorEvent.closedCur p => if q = p then some none else none
  | _, _ => none

/-- Replay a list of cursor events from a starting open-cursor state;
`some c` means the discipline held throughout (at most one cursor open
at any point, opened only when none is open, pulled/closed only while
open) and `c` is the cursor left open at the end. -/
def checkEvents : Option String → List CursorEvent → Option (Option String)
  | c, [] => some c
  | c, e :: es =>
    match stepCursor c e with
    | none => none
    | some c2 => checkEvents c2 es

/-- The name of the provider whose cursor is currently open in an
iterator state. -/
def curName (s : IterState) : Option String :=
  s.current.map (fun e => e.1)

/-- One named backend configuration entry (source `StorageConfig`);
backend-specific settings are abstracted into `kind`. -/
structure StorageConfig where
  name : String
  kind : String
deriving DecidableEq

/-- The ordered configuration list (source `StorageConfiguration`). -/
structure StorageConfiguration where
  storages : List StorageConfig

/-- Source `buildStorage`: instantiate each configuration entry through
the injected factory in declared order, then reverse the list so the
last-declared entry becomes the registry's primary. -/
def buildStorage (config : StorageConfiguration)
    (storageFactory : StorageConfig → StorageAdapter) : FallbackStorageAdapter :=
  ⟨(config.storages.map (fun c => (c.name, storageFactory c))).reverse⟩

/-- Concrete tenant used by witnesses and counterexamples. -/
def wsEx : WorkspaceId := ⟨"ws1"⟩

/-- Inert concrete provider used as the base of witness fixtures: it
reports no objects, succeeds on all broadcast operations, and lists
nothing. -/
def emptyAdapter : StorageAdapter where
  stat := fun _ _ => Except.ok none
  get := fun _ _ => Except.error "absent"
  partRead := fun _ _ _ _ => Except.error "absent"
  read := fun _ _ => Except.error "absent"
  put := fun _ _ _ _ _ => Except.ok ⟨"etag0", none⟩
  remove := fun _ _ => Except.ok ()
  existsFn := fun _ => Except.ok true
  make := fun _ => Except.ok ()
  delete := fun _ => Except.ok ()
  listStream := fun _ => []
  close := Except.ok ()

/-- Stat record the primary fixture reports for object `"obj"`. -/
def blobPrim : Blob := ⟨"idPrim", "", "etagPrim", 10⟩

/-- Stat record the fallback fixture reports for object `"obj"`. -/
def blobFall : Blob := ⟨"idFall", "", "etagFall", 20⟩

/-- Concrete primary provider holding `"obj"` with content
`"primContent"`. -/
def primAdapter : StorageAdapter :=
  { emptyAdapter with
    stat := fun _ n => if n = "obj" then Except.ok (some blobPrim) else Except.ok none,
    get := fun _ oid => if oid = "idPrim" then Except.ok "primContent" else Except.error "absent" }

/-- Concrete fallback provider holding `"obj"` with different content
`"fallContent"`. -/
def fallAdapter : StorageAdapter :=
  { emptyAdapter with
    stat := fun _ n => if n = "obj" then Except.ok (some blobFall) else Except.ok none,
    get := fun _ oid => if oid = "idFall" then Except.ok "fallContent" else Except.error "absent" }

/-- Listing entries of the two-provider example: `a`, `b` in the
fallback P1; `b`, `c` in the primary P2. -/
def lbrA : ListBlobResult := ⟨"a", "", "ha", 1⟩

/-- P1's entry for id `b`. -/
def lbrB1 : ListBlobResult := ⟨"b", "", "hb1", 2⟩

/-- P2's entry for id `b`. -/
def lbrB2 : ListBlobResult := ⟨"b", "", "hb2", 3⟩

/-- P2's entry for id `c`. -/
def lbrC : ListBlobResult := ⟨"c", "", "hc", 4⟩

/-- Fallback provider P1 of the listing example, containing `{a, b}`. -/
def adapterP1 : StorageAdapter :=
  { emptyAdapter with listStream := fun _ => [[lbrA, lbrB1]] }

/-- Primary provider P2 of the listing example, containing `{b, c}`. -/
def adapterP2 : StorageAdapter :=
  { emptyAdapter with listStream := fun _ => [[lbrB2, lbrC]] }

/-- The example aggregator: registry `[P2 (primary), P1 (fallback)]`. -/
def fallbackEx : FallbackStorageAdapter := ⟨[("P2", adapterP2), ("P1", adapterP1)]⟩

/-- Provider whose `remove` fails. -/
def badRemoveAdapter : StorageAdapter :=
  { emptyAdapter with remove := fun _ _ => Except.error "boom" }

/-- Provider that reports existence but fails to delete. -/
def badDeleteAdapter : StorageAdapter :=
  { emptyAdapter with delete := fun _ => Except.error "boom" }

/-- Provider that does not exist for any tenant (so gated deletion
skips it). -/
def notExistingAdapter : StorageAdapter :=
  { emptyAdapter with existsFn := fun _ => Except.ok false }

/-- Provider whose `exists` check and `make` both fail. -/
def badMakeAdapter : StorageAdapter :=
  { emptyAdapter with
    existsFn := fun _ => Except.error "noExists",
    make := fun _ => Except.error "noMake" }

/-! Lemmas about the merged listing iterator. -/

theorem drain_of_nil {s : IterState} (h : (iterNext s).out = []) : drain s = [] := by
  rw [drain]
  simp [h]

theorem drain_of_ne {s : IterState} (h : (iterNext s).out ≠ []) :
    drain s = (iterNext s).out ++ drain (iterNext s).state := by
  rw [drain]
  simp [h]

theorem drain_congr {s s' : IterState} (h1 : (iterNext s).out = (iterNext s').out)
    (h2 : (iterNext s).state = (iterNext s').state) : drain s = drain s' := by
  by_cases h : (iterNext s).out = []
  · have h' : (iterNext s').out = [] := by
      rw [← h1]
      exact h
    rw [drain_of_nil h, drain_of_nil h']
  · have h' : (iterNext s').out ≠ [] := by
      rw [← h1]
      exact h
    rw [drain_of_ne h, drain_of_ne h', h1, h2]

theorem iterNextGo_cons_eq (p : String) (bs : List (List ListBlobResult))
    (rest : List (String × List (List ListBlobResult))) :
    (iterNextGo ((p, bs) :: rest)).out = (iterNext ⟨rest, some (p, bs)⟩).out ∧
    (iterNextGo ((p, bs) :: rest)).state = (iterNext ⟨rest, some (p, bs)⟩).state := by
  cases bs with
  | nil => simp [iterNextGo, iterNext]
  | cons b more =>
    by_cases hb : b.isEmpty
    · simp [iterNextGo, iterNext, hb]
    · simp [iterNextGo, iterNext, hb]

theorem drain_some (p : String) (rest : List (String × List (List ListBlobResult)))
    (bs : List (List ListBlobResult)) :
    drain ⟨rest, some (p, bs)⟩ =
      tagWith p (List.flatten (bs.takeWhile (fun b => !b.isEmpty))) ++ drain ⟨rest, none⟩ := by
  induction bs with
  | nil =>
    have hc : drain ⟨rest, some (p, [])⟩ = drain (⟨rest, none⟩ : IterState) :=
      drain_congr (by simp [iterNext]) (by simp [iterNext])
    simp [hc, tagWith]
  | cons b more ih =>
    by_cases hb : b.isEmpty
    · have hc : drain ⟨rest, some (p, b :: more)⟩ = drain (⟨rest, none⟩ : IterState) :=
        drain_congr (by simp [iterNext, hb]) (by simp [iterNext, hb])
      simp [hc, hb, tagWith, List.takeWhile_cons]
    · have hout : (iterNext ⟨rest, some (p, b :: more)⟩).out = tagWith p b := by
        simp [iterNext, hb]
      have hstate : (iterNext ⟨rest, some (p, b :: more)⟩).state = ⟨rest, some (p, more)⟩ := by
        simp [iterNext, hb]
      have hbne : b ≠ [] := by
        intro hcon
        rw [hcon] at hb
        simp at hb
      have hne : (iterNext ⟨rest, some (p, b :: more)⟩).out ≠ [] := by
        rw [hout]
        simp [tagWith, hbne]
      rw [drain_of_ne hne, hout, hstate, ih]
      simp [List.takeWhile_cons, hb, tagWith]

theorem drain_none (rem : List (String × List (List ListBlobResult))) :
    drain ⟨rem, none⟩ =
      rem.flatMap (fun e => tagWith e.1 (List.flatten (e.2.takeWhile (fun b => !b.isEmpty)))) := by
  induction rem with
  | nil =>
    rw [drain_of_nil]
    · simp
    · simp [iterNext, iterNextGo]
  | cons e rest ih =>
    obtain ⟨p, bs⟩ := e
    have hc : drain ⟨(p, bs) :: rest, none⟩ = drain ⟨rest, some (p, bs)⟩ := by
      apply drain_congr
      · simpa [iterNext] using (iterNextGo_cons_eq p bs rest).1
      · simpa [iterNext] using (iterNextGo_cons_eq p bs rest).2
    rw [hc, drain_some, ih]
    simp

/-- Shared characterisation of the merged listing: the drained stream
visits providers in reverse registry order, takes each provider's
batches up to its first empty `next`, flattens them, and stamps every
entry with the provider's name. -/
theorem drain_makeStorageIterator (x : FallbackStorageAdapter) (ws : WorkspaceId) :
    drain (x.makeStorageIterator ws) =
      x.adapters.reverse.flatMap (fun e =>
        tagWith e.1 (List.flatten ((e.2.listStream ws).takeWhile (fun b => !b.isEmpty)))) := by
  unfold FallbackStorageAdapter.makeStorageIterator
  rw [drain_none]
  rw [List.flatMap_map]

theorem iterNextGo_events (rem : List (String × List (List ListBlobResult))) :
    checkEvents none (iterNextGo rem).events = some (curName (iterNextGo rem).state) := by
  induction rem with
  | nil => simp [iterNextGo, checkEvents, curName]
  | cons e rest ih =>
    obtain ⟨p, batches⟩ := e
    cases batches with
    | nil => simp [iterNextGo, checkEvents, stepCursor, ih]
    | cons b more =>
      by_cases hb : b.isEmpty
      · simp [iterNextGo, hb, checkEvents, stepCursor, ih]
      · have hb' : b.isEmpty = false := by
          simpa using hb
        simp [iterNextGo, hb', checkEvents, stepCursor, curName]

theorem iterNextGo_out_nil (rem : List (String × List (List ListBlobResult)))
    (h : (iterNextGo rem).out = []) : (iterNextGo rem).state = ⟨[], none⟩ := by
  induction rem with
  | nil => simp [iterNextGo]
  | cons e rest ih =>
    obtain ⟨p, batches⟩ := e
    cases batches with
    | nil =>
      simp only [iterNextGo] at h ⊢
      exact ih h
    | cons b more =>
      by_cases hb : b.isEmpty
      · simp only [iterNextGo, hb, if_true] at h ⊢
        exact ih h
      · have hb' : b.isEmpty = false := by
          simpa using hb
        simp only [iterNextGo, hb', Bool.false_eq_true, if_false] at h
        have hbne : b ≠ [] := by
          intro hcon
          rw [hcon] at hb'
          simp at hb'
        simp [tagWith] at h
        exact absurd h hbne

/-! Lemmas about the locator and the broadcast loops. -/

theorem findProviderGo_append_none (ws : WorkspaceId) (n : String)
    (pre rest : List (String × StorageAdapter))
    (h : ∀ e ∈ pre, e.2.stat ws n = Except.ok none) :
    findProviderGo ws n (pre ++ rest) =
      (pre.map (fun e => Call.statC e.1 ws.name n) ++ (findProviderGo ws n rest).1,
        (findProviderGo ws n rest).2) := by
  induction pre with
  | nil => simp
  | cons e pre' ih =>
    obtain ⟨id, a⟩ := e
    have he : a.stat ws n = Except.ok none := h (id, a) (by simp)
    have h' : ∀ e ∈ pre', e.2.stat ws n = Except.ok none := by
      intro e he'
      exact h e (by simp [he'])
    simp only [List.cons_append, findProviderGo, he, List.append_eq, ih h', List.map_cons]

theorem findProviderGo_trace (ws : WorkspaceId) (n : String)
    (adapters : List (String × StorageAdapter)) :
    (findProviderGo ws n adapters).1 =
      ((adapters.takeWhile (fun e =>
          match e.2.stat ws n with
          | Except.ok none => true
          | _ => false) ++
        (adapters.dropWhile (fun e =>
          match e.2.stat ws n with
          | Except.ok none => true
          | _ => false)).take 1).map
        (fun e => Call.statC e.1 ws.name n)) := by
  induction adapters with
  | nil => simp [findProviderGo]
  | cons e rest ih =>
    obtain ⟨id, a⟩ := e
    cases hst : a.stat ws n with
    | error err =>
      simp [findProviderGo, hst, List.takeWhile_cons, List.dropWhile_cons]
    | ok ob =>
      cases ob with
      | none =>
        simp [findProviderGo, hst, List.takeWhile_cons, List.dropWhile_cons, ih]
      | some b =>
        simp [findProviderGo, hst, List.takeWhile_cons, List.dropWhile_cons]

theorem removeGo_append_ok (ws : WorkspaceId) (objectNames : List String)
    (pre rest : List (String × StorageAdapter))
    (h : ∀ e ∈ pre, e.2.remove ws objectNames = Except.ok ()) :
    removeGo ws objectNames (pre ++ rest) =
      (pre.map (fun e => Call.removeC e.1 ws.name objectNames) ++
        (removeGo ws objectNames rest).1, (removeGo ws objectNames rest).2) := by
  induction pre with
  | nil => simp
  | cons e pre' ih =>
    obtain ⟨id, a⟩ := e
    have he : a.remove ws objectNames = Except.ok () := h (id, a) (by simp)
    have h' : ∀ e ∈ pre', e.2.remove ws objectNames = Except.ok () := by
      intro e he'
      exact h e (by simp [he'])
    simp only [List.cons_append, removeGo, he, List.append_eq, ih h', List.map_cons]

theorem closeGo_append_ok (pre rest : List (String × StorageAdapter))
    (h : ∀ e ∈ pre, e.2.close = Except.ok ()) :
    closeGo (pre ++ rest) =
      (pre.map (fun e => Call.closeC e.1) ++ (closeGo rest).1, (closeGo rest).2) := by
  induction pre with
  | nil => simp
  | cons e pre' ih =>
    obtain ⟨id, a⟩ := e
    have he : a.close = Except.ok () := h (id, a) (by simp)
    have h' : ∀ e ∈ pre', e.2.close = Except.ok () := by
      intro e he'
      exact h e (by simp [he'])
    simp only [List.cons_append, closeGo, he, List.append_eq, ih h', List.map_cons]

theorem deleteGo_append_ok (ws : WorkspaceId)
    (pre rest : List (String × StorageAdapter))
    (h : ∀ e ∈ pre, e.2.existsFn ws = Except.ok false ∨
      (e.2.existsFn ws = Except.ok true ∧ e.2.delete ws = Except.ok ())) :
    deleteGo ws (pre ++ rest) =
      (pre.flatMap (fun e => Call.existsC e.1 ws.name ::
          (if e.2.existsFn ws = Except.ok true then [Call.deleteC e.1 ws.name] else [])) ++
        (deleteGo ws rest).1, (deleteGo ws rest).2) := by
  induction pre with
  | nil => simp
  | cons e pre' ih =>
    obtain ⟨id, a⟩ := e
    have h' : ∀ e ∈ pre', e.2.existsFn ws = Except.ok false ∨
        (e.2.existsFn ws = Except.ok true ∧ e.2.delete ws = Except.ok ()) := by
      intro e he'
      exact h e (by simp [he'])
    rcases h (id, a) (by simp) with he | ⟨he, hd⟩
    · have he2 : a.existsFn ws = Except.ok false := he
      have hne : ¬ a.existsFn ws = Except.ok true := by
        simp [he2]
      simp only [List.cons_append, deleteGo, he2, List.append_eq, ih h', List.flatMap_cons]
      simp [hne]
    · have he2 : a.existsFn ws = Except.ok true := he
      have hd2 : a.delete ws = Except.ok () := hd
      simp only [List.cons_append, deleteGo, he2, hd2, List.append_eq, ih h', List.flatMap_cons]
      simp [he2]

theorem makeGo_eq (ws : WorkspaceId) (adapters : List (String × StorageAdapter)) :
    makeGo ws adapters =
      (adapters.flatMap (fun e => Call.existsC e.1 ws.name ::
          (match e.2.existsFn ws with
           | Except.ok false => [Call.makeC e.1 ws.name]
           | _ => [])),
        adapters.flatMap (fun e =>
          match e.2.existsFn ws with
          | Except.error err => [(e.1, err)]
          | Except.ok true => []
          | Except.ok false =>
            match e.2.make ws with
            | Except.error err => [(e.1, err)]
            | Except.ok _ => [])) := by
  induction adapters with
  | nil => simp [makeGo]
  | cons e rest ih =>
    obtain ⟨k, a⟩ := e
    cases hex : a.existsFn ws with
    | error err => simp [makeGo, hex, ih]
    | ok b =>
      cases b with
      | true => simp [makeGo, hex, ih]
      | false =>
        cases hmk : a.make ws with
        | error err => simp [makeGo, hex, hmk, ih]
        | ok u => simp [makeGo, hex, hmk, ih]

/-! Claim theorems. -/

/-- C8: `buildStorage` instantiates each configuration entry through
the injected factory in declared order and then reverses the resulting
list, so the last-declared configuration entry becomes the registry's
primary at index 0 and earlier-declared entries become fallbacks in
reverse declaration order. -/
theorem c8_buildStorage_reverses_config :
    (∀ (config : StorageConfiguration) (storageFactory : StorageConfig → StorageAdapter),
      (buildStorage config storageFactory).adapters =
        (config.storages.map (fun c => (c.name, storageFactory c))).reverse) ∧
    (∀ (cs : List StorageConfig) (clast : StorageConfig)
        (storageFactory : StorageConfig → StorageAdapter),
      (buildStorage ⟨cs ++ [clast]⟩ storageFactory).adapters =
        (clast.name, storageFactory clast) ::
          (cs.map (fun c => (c.name, storageFactory c))).reverse) := by
  constructor
  · intro config storageFactory
    rfl
  · intro cs clast storageFactory
    simp [buildStorage]

/-- C3: `put` invokes only the provider at registry index 0 (the
primary); the complete provider-call trace is the single `put` on the
primary, so no fallback provider is called or mutated and no existence
check or cleanup of same-named fallback copies happens. -/
theorem c3_put_targets_primary_only (p0 : String) (a0 : StorageAdapter)
    (rest : List (String × StorageAdapter)) (ws : WorkspaceId)
    (objectName stream contentType : String) (size : Option Nat) :
    FallbackStorageAdapter.put ⟨(p0, a0) :: rest⟩ ws objectName stream contentType size =
      ([Call.putC p0 ws.name objectName stream contentType size],
        liftBackend (a0.put ws objectName stream contentType size)) := rfl

/-- C4, counterexample: for an object absent from every provider,
`stat` does NOT fail with a NotFound-kind condition — it returns
`Except.ok none` (the source returns `undefined`), so the claim's
"each of stat, get, partial-read and full-read fails" is false for
`stat`. -/
theorem c4_counterexample_stat_absent_returns_none :
    FallbackStorageAdapter.stat ⟨[("p0", emptyAdapter)]⟩ ⟨"t0"⟩ "obj0" =
      ([Call.statC "p0" "t0" "obj0"], Except.ok none) := rfl

/-- C5: best-effort `make` visits every provider sequentially in
registry order (the trace contains the `exists` probe of every
provider, in order, regardless of any error), attempts creation only
on providers whose `exists` returned `false`, and collects every error
from `exists` or `make` as a swallowed log entry instead of
propagating it — by construction `make` has no error outcome at
all, so it never raises. -/
theorem c5_make_best_effort (ws : WorkspaceId) (adapters : List (String × StorageAdapter)) :
    FallbackStorageAdapter.make ⟨adapters⟩ ws =
      (adapters.flatMap (fun e => Call.existsC e.1 ws.name ::
          (match e.2.existsFn ws with
           | Except.ok false => [Call.makeC e.1 ws.name]
           | _ => [])),
        adapters.flatMap (fun e =>
          match e.2.existsFn ws with
          | Except.error err => [(e.1, err)]
          | Except.ok true => []
          | Except.ok false =>
            match e.2.make ws with
            | Except.error err => [(e.1, err)]
            | Except.ok _ => [])) :=
  makeGo_eq ws adapters

/-- C10: the aggregator's `close` invokes `close` on every registered
provider, sequentially in registry order (primary first, then
fallbacks), and performs no other provider call; a provider failure
propagates and stops the loop after the failing provider. -/
theorem c10_close_every_provider_in_order (adapters : List (String × StorageAdapter)) :
    ((∀ e ∈ adapters, e.2.close = Except.ok ()) →
      FallbackStorageAdapter.close ⟨adapters⟩ =
        (adapters.map (fun e => Call.closeC e.1), Except.ok ())) ∧
    (∀ pre p a post err, adapters = pre ++ (p, a) :: post →
      (∀ e ∈ pre, e.2.close = Except.ok ()) →
      a.close = Except.error err →
      FallbackStorageAdapter.close ⟨adapters⟩ =
        (pre.map (fun e => Call.closeC e.1) ++ [Call.closeC p],
          Except.error (StorageError.backendError err))) := by
  constructor
  · intro h
    have hgo := closeGo_append_ok adapters [] h
    simpa [FallbackStorageAdapter.close, closeGo] using hgo
  · intro pre p a post err hsplit hpre herr
    subst hsplit
    have hgo := closeGo_append_ok pre ((p, a) :: post) hpre
    simp only [FallbackStorageAdapter.close]
    rw [hgo]
    simp [closeGo, herr]

/-- C6: `remove` issues a removal call to every registered provider,
sequentially in registry order, unconditionally (the trace holds
exactly one `remove` per provider and no `exists` probe); the first
provider error propagates and stops the loop, leaving later providers
unvisited. -/
theorem c6_remove_broadcast_unconditional (ws : WorkspaceId) (objectNames : List String)
    (adapters : List (String × StorageAdapter)) :
    ((∀ e ∈ adapters, e.2.remove ws objectNames = Except.ok ()) →
      FallbackStorageAdapter.remove ⟨adapters⟩ ws objectNames =
        (adapters.map (fun e => Call.removeC e.1 ws.name objectNames), Except.ok ())) ∧
    (∀ pre p a post err, adapters = pre ++ (p, a) :: post →
      (∀ e ∈ pre, e.2.remove ws objectNames = Except.ok ()) →
      a.remove ws objectNames = Except.error err →
      FallbackStorageAdapter.remove ⟨adapters⟩ ws objectNames =
        (pre.map (fun e => Call.removeC e.1 ws.name objectNames) ++
          [Call.removeC p ws.name objectNames],
          Except.error (StorageError.backendError err))) := by
  constructor
  · intro h
    have hgo := removeGo_append_ok ws objectNames adapters [] h
    simpa [FallbackStorageAdapter.remove, removeGo] using hgo
  · intro pre p a post err hsplit hpre herr
    subst hsplit
    have hgo := removeGo_append_ok ws objectNames pre ((p, a) :: post) hpre
    simp only [FallbackStorageAdapter.remove]
    rw [hgo]
    simp [removeGo, herr]

/-- C7: `delete` visits providers sequentially in registry order,
probing `exists` on each and calling the provider's `delete` only on
those that report existence; an error raised by `exists` or `delete`
propagates (it is not swallowed) and stops the loop, leaving later
providers unvisited (the trace contains no call to them). -/
theorem c7_delete_gated_and_propagates (ws : WorkspaceId)
    (adapters : List (String × StorageAdapter)) :
    ((∀ e ∈ adapters, e.2.existsFn ws = Except.ok false ∨
        (e.2.existsFn ws = Except.ok true ∧ e.2.delete ws = Except.ok ())) →
      FallbackStorageAdapter.delete ⟨adapters⟩ ws =
        (adapters.flatMap (fun e => Call.existsC e.1 ws.name ::
            (if e.2.existsFn ws = Except.ok true then [Call.deleteC e.1 ws.name] else [])),
          Except.ok ())) ∧
    (∀ pre p a post, adapters = pre ++ (p, a) :: post →
      (∀ e ∈ pre, e.2.existsFn ws = Except.ok false ∨
        (e.2.existsFn ws = Except.ok true ∧ e.2.delete ws = Except.ok ())) →
      (∀ err, a.existsFn ws = Except.error err →
        FallbackStorageAdapter.delete ⟨adapters⟩ ws =
          (pre.flatMap (fun e => Call.existsC e.1 ws.name ::
              (if e.2.existsFn ws = Except.ok true then [Call.deleteC e.1 ws.name] else [])) ++
            [Call.existsC p ws.name],
            Except.error (StorageError.backendError err))) ∧
      (∀ err, a.existsFn ws = Except.ok true → a.delete ws = Except.error err →
        FallbackStorageAdapter.delete ⟨adapters⟩ ws =
          (pre.flatMap (fun e => Call.existsC e.1 ws.name ::
              (if e.2.existsFn ws = Except.ok true then [Call.deleteC e.1 ws.name] else [])) ++
            [Call.existsC p ws.name, Call.deleteC p ws.name],
            Except.error (StorageError.backendError err)))) := by
  constructor
  · intro h
    have hgo := deleteGo_append_ok ws adapters [] h
    simpa [FallbackStorageAdapter.delete, deleteGo] using hgo
  · intro pre p a post hsplit hpre
    subst hsplit
    have hgo := deleteGo_append_ok ws pre ((p, a) :: post) hpre
    constructor
    · intro err herr
      simp only [FallbackStorageAdapter.delete]
      rw [hgo]
      simp [deleteGo, herr]
    · intro err hex hdel
      simp only [FallbackStorageAdapter.delete]
      rw [hgo]
      simp [deleteGo, hex, hdel]

/-- C1: the read lookup (`findProvider`, used by stat/get/partial/read)
probes providers sequentially in registry order, primary (index 0)
first, calling `stat` on each, and short-circuits at the first
provider whose stat is non-empty: the probe trace is exactly the
leading providers with empty stats followed by the first deciding
provider; the first provider with a non-empty stat (after empty-stat
predecessors) supplies the result; consequently when the primary holds
the object, `stat` returns the primary's record stamped with the
primary's name and `get` delegates to the primary, regardless of any
fallback copies. -/
theorem c1_locator_probes_primary_first (ws : WorkspaceId) (n : String)
    (adapters : List (String × StorageAdapter)) :
    ((FallbackStorageAdapter.findProvider ⟨adapters⟩ ws n).1 =
      ((adapters.takeWhile (fun e =>
          match e.2.stat ws n with
          | Except.ok none => true
          | _ => false) ++
        (adapters.dropWhile (fun e =>
          match e.2.stat ws n with
          | Except.ok none => true
          | _ => false)).take 1).map (fun e => Call.statC e.1 ws.name n))) ∧
    (∀ pre p a rest b, adapters = pre ++ (p, a) :: rest →
      (∀ e ∈ pre, e.2.stat ws n = Except.ok none) →
      a.stat ws n = Except.ok (some b) →
      (FallbackStorageAdapter.findProvider ⟨adapters⟩ ws n).2 = Except.ok (some ⟨p, a, b⟩)) ∧
    (∀ p0 a0 rest b, adapters = (p0, a0) :: rest →
      a0.stat ws n = Except.ok (some b) →
      FallbackStorageAdapter.stat ⟨adapters⟩ ws n =
        ([Call.statC p0 ws.name n], Except.ok (some { b with provider := p0 })) ∧
      FallbackStorageAdapter.get ⟨adapters⟩ ws n =
        ([Call.statC p0 ws.name n, Call.getC p0 ws.name b._id],
          liftBackend (a0.get ws b._id))) := by
  refine ⟨findProviderGo_trace ws n adapters, ?_, ?_⟩
  · intro pre p a rest b hsplit hpre hb
    subst hsplit
    have hgo := findProviderGo_append_none ws n pre ((p, a) :: rest) hpre
    simp only [FallbackStorageAdapter.findProvider]
    rw [hgo]
    simp [findProviderGo, hb]
  · intro p0 a0 rest b hsplit hb
    subst hsplit
    constructor
    · simp [FallbackStorageAdapter.stat, FallbackStorageAdapter.findProvider, findProviderGo, hb]
    · simp [FallbackStorageAdapter.get, FallbackStorageAdapter.findProvider, findProviderGo, hb]

/-- C4, amended: for an object absent from all providers, `get`,
partial-read and full-read fail with the aggregator's NoSuchKey error
(code `"NoSuchKey"`) whose message names the tenant and the object,
after probing every provider; `stat`, however, returns an empty result
(`none`) rather than failing.  When the object is found, each read
path delegates to the located provider using the stat record's own
`_id`, not the external name. -/
theorem c4_read_paths_notfound_amended (ws : WorkspaceId) (n : String)
    (adapters : List (String × StorageAdapter)) (offset : Nat) (length : Option Nat) :
    ((∀ e ∈ adapters, e.2.stat ws n = Except.ok none) →
      (FallbackStorageAdapter.stat ⟨adapters⟩ ws n =
          (adapters.map (fun e => Call.statC e.1 ws.name n), Except.ok none) ∧
        FallbackStorageAdapter.get ⟨adapters⟩ ws n =
          (adapters.map (fun e => Call.statC e.1 ws.name n),
            Except.error (StorageError.noSuchKeyError (ws.name ++ " missing " ++ n))) ∧
        FallbackStorageAdapter.partRead ⟨adapters⟩ ws n offset length =
          (adapters.map (fun e => Call.statC e.1 ws.name n),
            Except.error (StorageError.noSuchKeyError (ws.name ++ " missing " ++ n))) ∧
        FallbackStorageAdapter.read ⟨adapters⟩ ws n =
          (adapters.map (fun e => Call.statC e.1 ws.name n),
            Except.error (StorageError.noSuchKeyError (ws.name ++ " missing " ++ n))))) ∧
    ((StorageError.noSuchKeyError (ws.name ++ " missing " ++ n)).code = some "NoSuchKey") ∧
    (∀ t p a st, FallbackStorageAdapter.findProvider ⟨adapters⟩ ws n =
        (t, Except.ok (some ⟨p, a, st⟩)) →
      FallbackStorageAdapter.get ⟨adapters⟩ ws n =
        (t ++ [Call.getC p ws.name st._id], liftBackend (a.get ws st._id)) ∧
      FallbackStorageAdapter.partRead ⟨adapters⟩ ws n offset length =
        (t ++ [Call.partC p ws.name st._id offset length],
          liftBackend (a.partRead ws st._id offset length)) ∧
      FallbackStorageAdapter.read ⟨adapters⟩ ws n =
        (t ++ [Call.readC p ws.name st._id], liftBackend (a.read ws st._id))) := by
  refine ⟨?_, rfl, ?_⟩
  · intro h
    have hgo := findProviderGo_append_none ws n adapters [] h
    have hfp : FallbackStorageAdapter.findProvider ⟨adapters⟩ ws n =
        (adapters.map (fun e => Call.statC e.1 ws.name n), Except.ok none) := by
      simpa [FallbackStorageAdapter.findProvider, findProviderGo] using hgo
    refine ⟨?_, ?_, ?_, ?_⟩
    · simp [FallbackStorageAdapter.stat, hfp]
    · simp [FallbackStorageAdapter.get, hfp]
    · simp [FallbackStorageAdapter.partRead, hfp]
    · simp [FallbackStorageAdapter.read, hfp]
  · intro t p a st heq
    refine ⟨?_, ?_, ?_⟩
    · simp [FallbackStorageAdapter.get, heq]
    · simp [FallbackStorageAdapter.partRead, heq]
    · simp [FallbackStorageAdapter.read, heq]

/-- C2: the merged listing visits providers in reverse registry order
(oldest fallback first, primary last), exhausts each provider's stream
before opening the next (a provider's batches are consumed up to its
first empty `next`, the stream-end signal), and stamps every yielded
entry with its provider's name; hence an id present in several
providers has the primary's entry after every fallback entry.  On the
concrete example — fallback P1 containing `{a, b}`, primary P2
containing `{b, c}` — the merged stream yields `a`, `b` from P1, `b`
from P2, then `c`: 4 raw entries with id `b`'s last occurrence tagged
P2. -/
theorem c2_merged_listing_reverse_order :
    (∀ (x : FallbackStorageAdapter) (ws : WorkspaceId),
      drain (x.makeStorageIterator ws) =
        x.adapters.reverse.flatMap (fun e =>
          tagWith e.1 (List.flatten ((e.2.listStream ws).takeWhile (fun b => !b.isEmpty))))) ∧
    (∀ (x : FallbackStorageAdapter) (ws : WorkspaceId),
      (∀ e ∈ x.adapters, ∀ b ∈ e.2.listStream ws, b ≠ []) →
      drain (x.makeStorageIterator ws) =
        x.adapters.reverse.flatMap (fun e =>
          tagWith e.1 (List.flatten (e.2.listStream ws)))) ∧
    drain (fallbackEx.makeStorageIterator wsEx) =
      [{ lbrA with provider := "P1" }, { lbrB1 with provider := "P1" },
        { lbrB2 with provider := "P2" }, { lbrC with provider := "P2" }] := by
  refine ⟨drain_makeStorageIterator, ?_, ?_⟩
  · intro x ws h
    rw [drain_makeStorageIterator]
    apply List.flatMap_congr
    intro e he
    have he' : e ∈ x.adapters := List.mem_reverse.mp he
    have hself : (e.2.listStream ws).takeWhile (fun b => !b.isEmpty) = e.2.listStream ws := by
      apply List.takeWhile_eq_self_iff.mpr
      intro b hb
      simpa using h e he' b hb
    rw [hself]
  · rw [drain_makeStorageIterator]
    rfl

/-- C9: during one `next` call of the merged iterator at most one
underlying provider cursor is open — replaying the emitted cursor
events never opens a cursor while another is open and ends with
exactly the cursor recorded in the successor state (`checkEvents`
returns `none` on any discipline violation); `close` on the merged
iterator closes whichever provider cursor is currently open and leaves
none open; when no cursor is open, `close` performs no provider call;
and after exhaustion (an empty `next`) no cursor is open, so a
subsequent `close` performs no provider call and cannot raise. -/
theorem c9_single_open_cursor (s : IterState) :
    (checkEvents (curName s) (iterNext s).events = some (curName (iterNext s).state)) ∧
    (checkEvents (curName s) (iterClose s) = some none) ∧
    (curName s = none → iterClose s = []) ∧
    ((iterNext s).out = [] →
      (iterNext s).state.current = none ∧ iterClose (iterNext s).state = []) := by
  obtain ⟨rem, cur⟩ := s
  refine ⟨?_, ?_, ?_, ?_⟩
  · cases cur with
    | none => simpa [iterNext, curName] using iterNextGo_events rem
    | some e =>
      obtain ⟨p, batches⟩ := e
      cases batches with
      | nil =>
        simpa [iterNext, curName, checkEvents, stepCursor] using iterNextGo_events rem
      | cons b more =>
        by_cases hb : b.isEmpty
        · simpa [iterNext, hb, curName, checkEvents, stepCursor] using iterNextGo_events rem
        · have hb' : b.isEmpty = false := by
            simpa using hb
          simp [iterNext, hb', curName, checkEvents, stepCursor]
  · cases cur with
    | none => simp [iterClose, curName, checkEvents]
    | some e =>
      obtain ⟨p, bs⟩ := e
      simp [iterClose, curName, checkEvents, stepCursor]
  · intro h
    cases cur with
    | none => simp [iterClose]
    | some e => simp [curName] at h
  · intro h
    cases cur with
    | none =>
      have hst := iterNextGo_out_nil rem (by simpa [iterNext] using h)
      constructor
      · simp [iterNext, hst]
      · simp [iterNext, hst, iterClose]
    | some e =>
      obtain ⟨p, batches⟩ := e
      cases batches with
      | nil =>
        have hst := iterNextGo_out_nil rem (by simpa [iterNext] using h)
        constructor
        · simp [iterNext, hst]
        · simp [iterNext, hst, iterClose]
      | cons b more =>
        by_cases hb : b.isEmpty
        · have hst := iterNextGo_out_nil rem (by simpa [iterNext, hb] using h)
          constructor
          · simp [iterNext, hb, hst]
          · simp [iterNext, hb, hst, iterClose]
        · have hb' : b.isEmpty = false := by
            simpa using hb
          have hbne : b ≠ [] := by
            intro hcon
            rw [hcon] at hb'
            simp at hb'
          simp only [iterNext, hb', Bool.false_eq_true, if_false] at h
          simp [tagWith] at h
          exact absurd h hbne

/-! Witnesses: each applies its claim theorem at a concrete input and
discharges the hypotheses there. -/

theorem c1_locator_probes_primary_first_witness :
    FallbackStorageAdapter.stat ⟨[("prim", primAdapter), ("fall", fallAdapter)]⟩ wsEx "obj" =
      ([Call.statC "prim" "ws1" "obj"],
        Except.ok (some { blobPrim with provider := "prim" })) ∧
    FallbackStorageAdapter.get ⟨[("prim", primAdapter), ("fall", fallAdapter)]⟩ wsEx "obj" =
      ([Call.statC "prim" "ws1" "obj", Call.getC "prim" "ws1" "idPrim"],
        Except.ok "primContent") := by
  obtain ⟨h1, h2⟩ :=
    (c1_locator_probes_primary_first wsEx "obj"
        [("prim", primAdapter), ("fall", fallAdapter)]).2.2
      "prim" primAdapter [("fall", fallAdapter)] blobPrim rfl (by decide)
  constructor
  · rw [h1]
    decide
  · rw [h2]
    decide

theorem c2_merged_listing_reverse_order_witness :
    (∀ e ∈ fallbackEx.adapters, ∀ b ∈ e.2.listStream wsEx, b ≠ []) ∧
    drain (fallbackEx.makeStorageIterator wsEx) =
      fallbackEx.adapters.reverse.flatMap (fun e =>
        tagWith e.1 (List.flatten (e.2.listStream wsEx))) :=
  ⟨by decide, c2_merged_listing_reverse_order.2.1 fallbackEx wsEx (by decide)⟩

theorem c4_read_paths_notfound_amended_witness :
    (∀ e ∈ [("p0", emptyAdapter)], e.2.stat wsEx "obj0" = Except.ok none) ∧
    FallbackStorageAdapter.get ⟨[("p0", emptyAdapter)]⟩ wsEx "obj0" =
      ([Call.statC "p0" "ws1" "obj0"],
        Except.error (StorageError.noSuchKeyError ("ws1" ++ " missing " ++ "obj0"))) := by
  constructor
  · decide
  · have h :=
      ((c4_read_paths_notfound_amended wsEx "obj0" [("p0", emptyAdapter)] 0 none).1
        (by decide)).2.1
    rw [h]
    decide

theorem c6_remove_broadcast_unconditional_witness :
    FallbackStorageAdapter.remove
        ⟨[("g", emptyAdapter), ("b", badRemoveAdapter), ("z", emptyAdapter)]⟩ wsEx ["n1"] =
      ([Call.removeC "g" "ws1" ["n1"], Call.removeC "b" "ws1" ["n1"]],
        Except.error (StorageError.backendError "boom")) := by
  have h :=
    (c6_remove_broadcast_unconditional wsEx ["n1"]
        [("g", emptyAdapter), ("b", badRemoveAdapter), ("z", emptyAdapter)]).2
      [("g", emptyAdapter)] "b" badRemoveAdapter [("z", emptyAdapter)] "boom"
      rfl (by decide) (by decide)
  rw [h]
  decide

theorem c7_delete_gated_and_propagates_witness :
    FallbackStorageAdapter.delete
        ⟨[("g1", emptyAdapter), ("g0", notExistingAdapter),
          ("bd", badDeleteAdapter), ("z", emptyAdapter)]⟩ wsEx =
      ([Call.existsC "g1" "ws1", Call.deleteC "g1" "ws1", Call.existsC "g0" "ws1",
        Call.existsC "bd" "ws1", Call.deleteC "bd" "ws1"],
        Except.error (StorageError.backendError "boom")) := by
  have h :=
    ((c7_delete_gated_and_propagates wsEx
        [("g1", emptyAdapter), ("g0", notExistingAdapter),
          ("bd", badDeleteAdapter), ("z", emptyAdapter)]).2
      [("g1", emptyAdapter), ("g0", notExistingAdapter)] "bd" badDeleteAdapter
      [("z", emptyAdapter)] rfl (by decide)).2 "boom" (by decide) (by decide)
  rw [h]
  decide

theorem c9_single_open_cursor_witness :
    curName (⟨[], none⟩ : IterState) = none ∧
    iterClose ⟨[], none⟩ = [] ∧
    (iterNext ⟨[], none⟩).state.current = none :=
  ⟨rfl, (c9_single_open_cursor ⟨[], none⟩).2.2.1 rfl,
    ((c9_single_open_cursor ⟨[], none⟩).2.2.2 rfl).1⟩

theorem c10_close_every_provider_in_order_witness :
    FallbackStorageAdapter.close ⟨[("P2", adapterP2), ("P1", adapterP1)]⟩ =
      ([Call.closeC "P2", Call.closeC "P1"], Except.ok ()) := by
  have h :=
    (c10_close_every_provider_in_order [("P2", adapterP2), ("P1", adapterP1)]).1 (by decide)
  rw [h]
  decide
